import Mathlib

/-!
Verification of the Markdown scanner/emitter of this repository.

The repository contains two near-duplicate scripts, `convert_md_to_docx.py`
and `convert_to_word.py`.  Each reads a Markdown file, splits it on newline
characters into a line stream, and walks the lines with a cursor, emitting one
structured content command per recognised unit to the document-building
collaborator (python-docx).  We embed both scanners.

A Python `str` is a sequence of code points; we embed it as `List Char`
(called `Str` below).  The helper functions below are the Python string
operations the scripts use (`strip`, `startswith`, `endswith`, `split`,
`in`, `replace(x, '')`, slicing, `'\n'.join`), written structurally so that
everything evaluates by `decide` on concrete inputs.
-/

/-- A Python string: a sequence of code points. -/
abbrev Str := List Char

/-- The whitespace characters relevant to `str.strip` for the ASCII inputs
handled here. -/
def isSpace (c : Char) : Bool := c = ' ' || c = '\t' || c = '\n' || c = '\r'

/-- Python `str.lstrip()`. -/
def lstrip (s : Str) : Str := s.dropWhile isSpace

/-- Python `str.rstrip()`. -/
def rstrip (s : Str) : Str := (s.reverse.dropWhile isSpace).reverse

/-- Python `str.strip()`. -/
def pyStrip (s : Str) : Str := rstrip (lstrip s)

/-- Python `str.startswith(p)`: first argument the string, second the
candidate leading piece. -/
def startsWith : Str → Str → Bool
  | _, [] => true
  | [], _ :: _ => false
  | c :: cs, p :: ps => if c = p then startsWith cs ps else false

/-- Python `str.endswith(p)`. -/
def endsWith (s p : Str) : Bool := startsWith s.reverse p.reverse

/-- Python `str.split(sep)` for a one-character separator. -/
def splitOnChar (sep : Char) : Str → List Str
  | [] => [[]]
  | c :: rest =>
    let r := splitOnChar sep rest
    if c = sep then [] :: r
    else
      match r with
      | [] => [[c]]
      | g :: gs => (c :: g) :: gs

/-- Python `ch in s` for a single character. -/
def containsChar (c : Char) (s : Str) : Bool := s.any (fun x => x = c)

/-- Python `pat in s` for a multi-character pattern. -/
def hasSubstr (pat : Str) : Str → Bool
  | [] => pat.isEmpty
  | c :: rest => startsWith (c :: rest) pat || hasSubstr pat rest

/-- Python `s.replace(ch, '')` for a one-character pattern. -/
def removeChar (c : Char) (s : Str) : Str := s.filter (fun x => x ≠ c)

/-- Python `s.replace('**', '')`: delete the leftmost non-overlapping
occurrences of the two-character bold marker. -/
def removeDoubleStar : Str → Str
  | '*' :: '*' :: rest => removeDoubleStar rest
  | c :: rest => c :: removeDoubleStar rest
  | [] => []

/-- Python `[cell.strip() for cell in line.split('|')[1:-1]]`, the
pipe-delimited cell extraction both scripts use. -/
def splitCells (l : Str) : List Str :=
  (((splitOnChar '|' l).drop 1).dropLast).map pyStrip

/-- One structural content command handed to the document-building
collaborator (spec §3).  `spacer` stands for the blank separator paragraph
emitted for a horizontal rule. -/
inductive Cmd where
  | heading (text : Str) (level : Nat)
  | paragraph (text : Str) (bold italic : Bool)
  | table (headers : List Str) (rows : List (List Str))
  | codeBlock (text : Str)
  | listItem (text : Str)
  | spacer
deriving DecidableEq, Repr

/-- The shared `while i < len(lines)` driver of both scripts: repeatedly run
one loop iteration (`step`), which emits commands and moves the cursor.  The
fuel bounds the number of iterations; both scripts need at most one
iteration per line (claim C10). -/
def runScan (step : List Str → Nat → List Cmd × Nat) :
    Nat → List Str → Nat → List Cmd
  | 0, _, _ => []
  | fuel + 1, lines, i =>
    if i < lines.length then
      let st := step lines i
      st.1 ++ runScan step fuel lines st.2
    else []

/-- `lines[i]` of the Python scripts: every access in both scan loops is
guarded by `i < len(lines)`, so the default value is never observable. -/
def lineAt (lines : List Str) (i : Nat) : Str := lines.getD i []

/-- The leading `n` hash characters and the following space that mark a
heading line of level `n`. -/
def headingPrefix (n : Nat) : Str := List.replicate n '#' ++ [' ']

namespace MdToDocx

/-!  Embedding of `convert_md_to_docx.py`. -/

/-- The data-row loop of `parse_table` (source lines 46–54), expressed over
the suffix `lines[idx:]`: returns the collected rows and the number of lines
consumed. -/
def parseRowsL : List Str → List (List Str) × Nat
  | [] => ([], 0)
  | l :: rest =>
    if containsChar '|' l then
      let row_line := pyStrip l
      if row_line.isEmpty || startsWith row_line ['#'] then ([], 0)
      else
        let row := splitCells row_line
        let pr := parseRowsL rest
        if !row.isEmpty && row.any (fun cell => !cell.isEmpty) then
          (row :: pr.1, pr.2 + 1)
        else (pr.1, pr.2 + 1)
    else ([], 0)

/-- `parse_table(lines, start_idx)` (source lines 30–56): returns
`(headers, rows, next_idx)`. -/
def parse_table (lines : List Str) (start_idx : Nat) :
    List Str × List (List Str) × Nat :=
  if start_idx < lines.length ∧ containsChar '|' (lineAt lines start_idx) then
    let headers := splitCells (pyStrip (lineAt lines start_idx))
    let idx := start_idx + 1
    let idx2 :=
      if idx < lines.length ∧ hasSubstr ['-', '-', '-'] (lineAt lines idx) then
        idx + 1
      else idx
    let pr := parseRowsL (lines.drop idx2)
    (headers, pr.1, idx2 + pr.2)
  else ([], [], start_idx)

/-- One iteration of the `markdown_to_docx` scan loop (source lines 93–142):
the emitted commands and the next cursor value. -/
def step (lines : List Str) (i : Nat) : List Cmd × Nat :=
  let line := lineAt lines i
  if (pyStrip line).isEmpty then ([], i + 1)
  else if startsWith line ['#', ' '] then
    ([.heading (pyStrip (line.drop 2)) 1], i + 1)
  else if startsWith line ['#', '#', ' '] then
    ([.heading (pyStrip (line.drop 3)) 2], i + 1)
  else if startsWith line ['#', '#', '#', ' '] then
    ([.heading (pyStrip (line.drop 4)) 3], i + 1)
  else if startsWith line ['#', '#', '#', '#', ' '] then
    ([.heading (pyStrip (line.drop 5)) 4], i + 1)
  else if containsChar '|' line then
    let pt := parse_table lines i
    (if !pt.1.isEmpty && !pt.2.1.isEmpty then [.table pt.1 pt.2.1] else [],
     pt.2.2)
  else if startsWith line ['*', '*'] then
    ([.paragraph (removeDoubleStar line) true false], i + 1)
  else if !(pyStrip line).isEmpty && !startsWith line ['-', '-', '-'] then
    let text := removeChar '_' (removeChar '`' (removeDoubleStar line))
    (if (pyStrip text).isEmpty then [] else [.paragraph text false false],
     i + 1)
  else if startsWith line ['-', '-', '-'] then ([.spacer], i + 1)
  else ([], i + 1)

/-- The whole scan of `markdown_to_docx` over an already-split line stream. -/
def markdown_to_docx (lines : List Str) : List Cmd :=
  runScan step lines.length lines 0

/-- The per-line condition under which the data-row loop of `parse_table`
consumes a line: it contains a pipe and its stripped form is neither empty
nor a `#` line. -/
def dataLineOk (l : Str) : Bool :=
  containsChar '|' l && !((pyStrip l).isEmpty || startsWith (pyStrip l) ['#'])

/-- The cells a consumed data line contributes. -/
def rowCells (l : Str) : List Str := splitCells (pyStrip l)

/-- The filter `parse_table` applies to a parsed row: kept only when it has
at least one cell and at least one cell is non-empty after trimming. -/
def keepRow (row : List Str) : Bool :=
  !row.isEmpty && row.any (fun cell => !cell.isEmpty)

end MdToDocx

namespace ToWord

/-!  Embedding of `convert_to_word.py`. -/

/-- The data-row filter of `add_table_from_markdown` (source lines 43–49):
a line of `lines[2:]` contributes a row only when it is non-blank, contains
a pipe, and its cell count equals the header's cell count. -/
def qualifyingRows (header : List Str) (tlines : List Str) :
    List (List Str) :=
  (tlines.drop 2).filterMap (fun line =>
    if !(pyStrip line).isEmpty && containsChar '|' line then
      (let cells := splitCells line
       if cells.length = header.length then some cells else none)
    else none)

/-- `add_table_from_markdown(doc, markdown_table)` (source lines 20–49),
as the table command it adds to the document; `none` when it returns
without adding one (fewer than three lines). -/
def add_table_from_markdown (markdown_table : Str) : Option Cmd :=
  let tlines := splitOnChar '\n' (pyStrip markdown_table)
  if tlines.length < 3 then none
  else
    let header := splitCells (lineAt tlines 0)
    some (.table header (qualifyingRows header tlines))

/-- The inner code-fence loop (source lines 85–89), over the suffix after
the opening fence: the collected interior lines and the count consumed. -/
def collectCode : List Str → List Str × Nat
  | [] => ([], 0)
  | l :: rest =>
    if startsWith l ['`', '`', '`'] then ([], 0)
    else
      let cc := collectCode rest
      (l :: cc.1, cc.2 + 1)

/-- The inner table-block loop (source lines 101–105), over the suffix after
the first pipe line: the collected pipe lines and the count consumed. -/
def collectPipe : List Str → List Str × Nat
  | [] => ([], 0)
  | l :: rest =>
    if startsWith (pyStrip l) ['|'] then
      let cp := collectPipe rest
      (l :: cp.1, cp.2 + 1)
    else ([], 0)

/-- One iteration of the `markdown_to_docx` scan loop (source lines 70–127),
including the unconditional trailing `i += 1`. -/
def step (lines : List Str) (i : Nat) : List Cmd × Nat :=
  let line := lineAt lines i
  if startsWith line ['#', ' '] then
    ([.heading (pyStrip (line.drop 2)) 1], i + 1)
  else if startsWith line ['#', '#', ' '] then
    ([.heading (pyStrip (line.drop 3)) 2], i + 1)
  else if startsWith line ['#', '#', '#', ' '] then
    ([.heading (pyStrip (line.drop 4)) 3], i + 1)
  else if startsWith line ['#', '#', '#', '#', ' '] then
    ([.heading (pyStrip (line.drop 5)) 4], i + 1)
  else if startsWith line ['`', '`', '`'] then
    let cc := collectCode (lines.drop (i + 1))
    ([.codeBlock (List.intercalate ['\n'] cc.1)], i + cc.2 + 2)
  else if startsWith (pyStrip line) ['|'] then
    let cp := collectPipe (lines.drop (i + 1))
    ((add_table_from_markdown (List.intercalate ['\n'] (line :: cp.1))).toList,
     i + cp.2 + 1)
  else if startsWith (pyStrip line) ['*', '*'] && endsWith (pyStrip line) ['*', '*'] then
    ([.paragraph ((((pyStrip line).drop 2).dropLast).dropLast) true false], i + 1)
  else if startsWith (pyStrip line) ['-', ' '] then
    ([.listItem ((pyStrip line).drop 2)], i + 1)
  else if !(pyStrip line).isEmpty && !startsWith line ['#'] && !startsWith line ['|'] then
    ([.paragraph (pyStrip line) false false], i + 1)
  else ([], i + 1)

/-- The whole scan of `markdown_to_docx` over an already-split line stream. -/
def markdown_to_docx (lines : List Str) : List Cmd :=
  runScan step lines.length lines 0

/-- The per-line condition of the table-block collection loop: the stripped
line starts with a pipe. -/
def pipeStartB (l : Str) : Bool := startsWith (pyStrip l) ['|']

/-- The table fragment the scanner hands to `add_table_from_markdown` when
the line at `i` opens a table block. -/
def tableRun (lines : List Str) (i : Nat) : List Str :=
  lineAt lines i :: (lines.drop (i + 1)).takeWhile pipeStartB

/-- The per-line condition of the code-fence collection loop: the line does
not start a closing fence. -/
def notFence (l : Str) : Bool := !startsWith l ['`', '`', '`']

end ToWord

/-!  ## Helper lemmas -/

theorem startsWith_iff (l p : Str) : startsWith l p = true ↔ ∃ t, l = p ++ t := by
  induction p generalizing l with
  | nil => simp [startsWith]
  | cons x xs ih =>
    cases l with
    | nil => simp [startsWith]
    | cons c cs =>
      by_cases h : c = x
      · subst h
        simp [startsWith, ih]
      · simp only [startsWith, if_neg h, List.cons_append]
        constructor
        · intro hh; exact absurd hh (by simp)
        · rintro ⟨t, ht⟩
          exact absurd (List.head_eq_of_cons_eq ht) h

theorem lstrip_eq_self_of (l : Str) (h : ∀ c ∈ l, isSpace c = false) :
    lstrip l = l := by
  cases l with
  | nil => rfl
  | cons c cs => simp [lstrip, List.dropWhile_cons, h c (by simp)]

theorem rstrip_eq_self_of (l : Str) (h : ∀ c ∈ l, isSpace c = false) :
    rstrip l = l := by
  unfold rstrip
  have hrev : l.reverse.dropWhile isSpace = l.reverse := by
    cases hr : l.reverse with
    | nil => rfl
    | cons c cs =>
      have hc : c ∈ l := by
        rw [← List.mem_reverse, hr]; simp
      simp [List.dropWhile_cons, h c hc]
  rw [hrev, List.reverse_reverse]

theorem pyStrip_eq_self_of (l : Str) (h : ∀ c ∈ l, isSpace c = false) :
    pyStrip l = l := by
  unfold pyStrip
  rw [lstrip_eq_self_of l h, rstrip_eq_self_of l h]

theorem lstrip_eq_nil_iff (l : Str) : lstrip l = [] ↔ ∀ c ∈ l, isSpace c = true := by
  simp [lstrip, List.dropWhile_eq_nil_iff]

theorem rstrip_eq_nil_iff (l : Str) : rstrip l = [] ↔ ∀ c ∈ l, isSpace c = true := by
  simp [rstrip, List.dropWhile_eq_nil_iff]

theorem mem_of_mem_lstrip {l : Str} {c : Char} (h : c ∈ lstrip l) : c ∈ l :=
  (List.dropWhile_sublist isSpace).subset h

theorem pyStrip_eq_nil_iff (l : Str) :
    pyStrip l = [] ↔ ∀ c ∈ l, isSpace c = true := by
  unfold pyStrip
  rw [rstrip_eq_nil_iff]
  constructor
  · intro h c hc
    have hsplit := List.takeWhile_append_dropWhile (p := isSpace) (l := l)
    rw [← hsplit] at hc
    rcases List.mem_append.mp hc with h1 | h2
    · exact List.mem_takeWhile_imp h1
    · exact h c h2
  · intro h c hc
    exact h c (mem_of_mem_lstrip hc)

theorem pyStrip_not_nil (l : Str) (c : Char) (hc : c ∈ l)
    (hs : isSpace c = false) : (pyStrip l).isEmpty = false := by
  rw [List.isEmpty_eq_false_iff_exists_mem]
  by_contra hh
  push_neg at hh
  have : pyStrip l = [] := List.eq_nil_iff_forall_not_mem.mpr (by simpa using hh)
  rw [pyStrip_eq_nil_iff] at this
  rw [this c hc] at hs
  cases hs

theorem collectCode_spec (ls : List Str) :
    ToWord.collectCode ls =
      (ls.takeWhile ToWord.notFence, (ls.takeWhile ToWord.notFence).length) := by
  induction ls with
  | nil => rfl
  | cons l rest ih =>
    by_cases h : startsWith l ['`', '`', '`'] = true
    · simp [ToWord.collectCode, h, ToWord.notFence, List.takeWhile_cons]
    · simp only [Bool.not_eq_true] at h
      simp [ToWord.collectCode, h, ToWord.notFence, List.takeWhile_cons, ih]

theorem collectPipe_spec (ls : List Str) :
    ToWord.collectPipe ls =
      (ls.takeWhile ToWord.pipeStartB, (ls.takeWhile ToWord.pipeStartB).length) := by
  induction ls with
  | nil => rfl
  | cons l rest ih =>
    by_cases h : startsWith (pyStrip l) ['|'] = true
    · simp [ToWord.collectPipe, h, ToWord.pipeStartB, List.takeWhile_cons, ih]
    · simp only [Bool.not_eq_true] at h
      simp [ToWord.collectPipe, h, ToWord.pipeStartB, List.takeWhile_cons]

theorem parseRowsL_spec (ls : List Str) :
    MdToDocx.parseRowsL ls =
      (((ls.takeWhile MdToDocx.dataLineOk).map MdToDocx.rowCells).filter
         MdToDocx.keepRow,
       (ls.takeWhile MdToDocx.dataLineOk).length) := by
  induction ls with
  | nil => rfl
  | cons l rest ih =>
    by_cases h1 : containsChar '|' l = true
    · by_cases h2 : ((pyStrip l).isEmpty || startsWith (pyStrip l) ['#']) = true
      · simp [MdToDocx.parseRowsL, MdToDocx.dataLineOk, h1, h2, List.takeWhile_cons]
      · simp only [Bool.or_eq_true, not_or, Bool.not_eq_true] at h2
        simp [MdToDocx.parseRowsL, MdToDocx.dataLineOk, MdToDocx.rowCells,
              MdToDocx.keepRow, h1, h2.1, h2.2, List.takeWhile_cons, ih,
              List.filter_cons]
        split <;> simp
    · simp only [Bool.not_eq_true] at h1
      simp [MdToDocx.parseRowsL, MdToDocx.dataLineOk, h1, List.takeWhile_cons]

theorem parse_table_lt (lines : List Str) (i : Nat)
    (h : containsChar '|' (lineAt lines i) = true) :
    i < (MdToDocx.parse_table lines i).2.2 := by
  have hlen : i < lines.length := by
    by_contra hh
    rw [show lineAt lines i = [] from List.getD_eq_default _ _ (by omega)] at h
    exact absurd h (by decide)
  have hg : i < lines.length ∧ containsChar '|' (lineAt lines i) = true :=
    ⟨hlen, h⟩
  unfold MdToDocx.parse_table
  rw [if_pos hg]
  simp only []
  split <;> omega

theorem stepA_lt (lines : List Str) (i : Nat) : i < (MdToDocx.step lines i).2 := by
  simp only [MdToDocx.step]
  repeat' split
  all_goals first
    | exact Nat.lt_succ_self i
    | exact parse_table_lt lines i (by assumption)

theorem stepB_lt (lines : List Str) (i : Nat) : i < (ToWord.step lines i).2 := by
  simp only [ToWord.step]
  repeat' split
  all_goals first
    | exact Nat.lt_succ_self i
    | exact (show i < i + _ + 2 by omega)
    | exact (show i < i + _ + 1 by omega)

theorem runScan_stop (step : List Str → Nat → List Cmd × Nat) (f : Nat)
    (lines : List Str) (i : Nat) (h : lines.length ≤ i) :
    runScan step f lines i = [] := by
  cases f with
  | zero => rfl
  | succ f => simp [runScan, Nat.not_lt.mpr h]

theorem runScan_congr (step : List Str → Nat → List Cmd × Nat)
    (hstep : ∀ lines i, i < (step lines i).2) :
    ∀ f1 f2 lines i, lines.length - i ≤ f1 → lines.length - i ≤ f2 →
      runScan step f1 lines i = runScan step f2 lines i := by
  intro f1
  induction f1 with
  | zero =>
    intro f2 lines i h1 h2
    rw [runScan_stop _ _ _ _ (by omega), runScan_stop _ _ _ _ (by omega)]
  | succ f ih =>
    intro f2 lines i h1 h2
    by_cases hlt : i < lines.length
    · obtain ⟨f2', rfl⟩ : ∃ k, f2 = k + 1 := by
        cases f2 with
        | zero => omega
        | succ k => exact ⟨k, rfl⟩
      simp only [runScan, if_pos hlt]
      have hs := hstep lines i
      exact congrArg _ (ih f2' lines (step lines i).2 (by omega) (by omega))
    · rw [runScan_stop _ _ _ _ (by omega), runScan_stop _ _ _ _ (by omega)]

theorem stepA_table (lines : List Str) (i : Nat)
    (hb : pyStrip (lineAt lines i) ≠ [])
    (h1 : startsWith (lineAt lines i) ['#', ' '] = false)
    (h2 : startsWith (lineAt lines i) ['#', '#', ' '] = false)
    (h3 : startsWith (lineAt lines i) ['#', '#', '#', ' '] = false)
    (h4 : startsWith (lineAt lines i) ['#', '#', '#', '#', ' '] = false)
    (hc : containsChar '|' (lineAt lines i) = true) :
    MdToDocx.step lines i =
      (if !(MdToDocx.parse_table lines i).1.isEmpty &&
          !(MdToDocx.parse_table lines i).2.1.isEmpty then
         [Cmd.table (MdToDocx.parse_table lines i).1
            (MdToDocx.parse_table lines i).2.1]
       else [],
       (MdToDocx.parse_table lines i).2.2) := by
  simp only [MdToDocx.step]
  rw [if_neg (by simp [hb]), if_neg (by simp [h1]), if_neg (by simp [h2]),
      if_neg (by simp [h3]), if_neg (by simp [h4]), if_pos hc]

theorem parse_table_spec (lines : List Str) (i : Nat)
    (hlen : i < lines.length)
    (hc : containsChar '|' (lineAt lines i) = true)
    (hsep1 : i + 1 < lines.length)
    (hsep2 : hasSubstr ['-', '-', '-'] (lineAt lines (i + 1)) = true) :
    MdToDocx.parse_table lines i =
      (splitCells (pyStrip (lineAt lines i)),
       (((lines.drop (i + 2)).takeWhile MdToDocx.dataLineOk).map
          MdToDocx.rowCells).filter MdToDocx.keepRow,
       i + 2 + ((lines.drop (i + 2)).takeWhile MdToDocx.dataLineOk).length) := by
  have hg : i < lines.length ∧ containsChar '|' (lineAt lines i) = true :=
    ⟨hlen, hc⟩
  have hsep : i + 1 < lines.length ∧
      hasSubstr ['-', '-', '-'] (lineAt lines (i + 1)) = true :=
    ⟨hsep1, hsep2⟩
  unfold MdToDocx.parse_table
  rw [if_pos hg]
  simp only []
  rw [if_pos hsep, parseRowsL_spec]

theorem stepB_table (lines : List Str) (i : Nat)
    (h1 : startsWith (lineAt lines i) ['#', ' '] = false)
    (h2 : startsWith (lineAt lines i) ['#', '#', ' '] = false)
    (h3 : startsWith (lineAt lines i) ['#', '#', '#', ' '] = false)
    (h4 : startsWith (lineAt lines i) ['#', '#', '#', '#', ' '] = false)
    (hf : startsWith (lineAt lines i) ['`', '`', '`'] = false)
    (hp : startsWith (pyStrip (lineAt lines i)) ['|'] = true) :
    ToWord.step lines i =
      ((ToWord.add_table_from_markdown
          (List.intercalate ['\n'] (ToWord.tableRun lines i))).toList,
       i + ((lines.drop (i + 1)).takeWhile ToWord.pipeStartB).length + 1) := by
  simp only [ToWord.step]
  rw [if_neg (by simp [h1]), if_neg (by simp [h2]), if_neg (by simp [h3]),
      if_neg (by simp [h4]), if_neg (by simp [hf]), if_pos hp,
      collectPipe_spec]
  rfl

theorem add_table_spec (run : List Str)
    (hRT : splitOnChar '\n' (pyStrip (List.intercalate ['\n'] run)) = run) :
    ToWord.add_table_from_markdown (List.intercalate ['\n'] run) =
      if run.length < 3 then none
      else
        some (Cmd.table (splitCells (lineAt run 0))
          (ToWord.qualifyingRows (splitCells (lineAt run 0)) run)) := by
  unfold ToWord.add_table_from_markdown
  rw [hRT]

theorem pyStrip_cons_ne {c : Char} (hs : isSpace c = false) (xs : Str) :
    pyStrip (c :: xs) ≠ [] := by
  intro h
  rw [pyStrip_eq_nil_iff] at h
  rw [h c (by simp)] at hs
  cases hs

/-- Claim C2: for every input line that begins with 1 to 4 hash characters
followed by a space, both scanners emit exactly one Heading command whose
level equals the number of hash characters and whose text equals the line
with the hash-and-space prefix and surrounding whitespace removed, and the
cursor advances by exactly one line. -/
theorem claim_c2 (lines : List Str) (i n : Nat) (t : Str)
    (hn1 : 1 ≤ n) (hn4 : n ≤ 4)
    (hline : lineAt lines i = headingPrefix n ++ t) :
    MdToDocx.step lines i = ([Cmd.heading (pyStrip t) n], i + 1) ∧
    ToWord.step lines i = ([Cmd.heading (pyStrip t) n], i + 1) := by
  interval_cases n
  · rw [show headingPrefix 1 ++ t = '#' :: ' ' :: t from rfl] at hline
    constructor
    · simp only [MdToDocx.step]
      rw [hline]
      rw [if_neg (by simp [List.isEmpty_iff]; exact pyStrip_cons_ne (by decide) _)]
      rw [if_pos (by simp [startsWith])]
      rfl
    · simp only [ToWord.step]
      rw [hline]
      rw [if_pos (by simp [startsWith])]
      rfl
  · rw [show headingPrefix 2 ++ t = '#' :: '#' :: ' ' :: t from rfl] at hline
    constructor
    · simp only [MdToDocx.step]
      rw [hline]
      rw [if_neg (by simp [List.isEmpty_iff]; exact pyStrip_cons_ne (by decide) _)]
      rw [if_neg (by simp [startsWith]), if_pos (by simp [startsWith])]
      rfl
    · simp only [ToWord.step]
      rw [hline]
      rw [if_neg (by simp [startsWith]), if_pos (by simp [startsWith])]
      rfl
  · rw [show headingPrefix 3 ++ t = '#' :: '#' :: '#' :: ' ' :: t from rfl] at hline
    constructor
    · simp only [MdToDocx.step]
      rw [hline]
      rw [if_neg (by simp [List.isEmpty_iff]; exact pyStrip_cons_ne (by decide) _)]
      rw [if_neg (by simp [startsWith]), if_neg (by simp [startsWith]),
          if_pos (by simp [startsWith])]
      rfl
    · simp only [ToWord.step]
      rw [hline]
      rw [if_neg (by simp [startsWith]), if_neg (by simp [startsWith]),
          if_pos (by simp [startsWith])]
      rfl
  · rw [show headingPrefix 4 ++ t = '#' :: '#' :: '#' :: '#' :: ' ' :: t from rfl] at hline
    constructor
    · simp only [MdToDocx.step]
      rw [hline]
      rw [if_neg (by simp [List.isEmpty_iff]; exact pyStrip_cons_ne (by decide) _)]
      rw [if_neg (by simp [startsWith]), if_neg (by simp [startsWith]),
          if_neg (by simp [startsWith]), if_pos (by simp [startsWith])]
      rfl
    · simp only [ToWord.step]
      rw [hline]
      rw [if_neg (by simp [startsWith]), if_neg (by simp [startsWith]),
          if_neg (by simp [startsWith]), if_pos (by simp [startsWith])]
      rfl

/-- Witness for C2 at the spec's round-trip instance `## Section Two`. -/
theorem claim_c2_witness :
    MdToDocx.step [("## Section Two").toList] 0 =
      ([Cmd.heading (pyStrip ("Section Two").toList) 2], 1) ∧
    ToWord.step [("## Section Two").toList] 0 =
      ([Cmd.heading (pyStrip ("Section Two").toList) 2], 1) :=
  claim_c2 [("## Section Two").toList] 0 2 ("Section Two").toList
    (by decide) (by decide) (by decide)

/-- Claim C10: both scan loops terminate on every finite line stream: every
classification branch moves the cursor strictly forward, so a fuel of one
iteration per line is enough — any larger iteration budget produces the same
command sequence as the scan itself. -/
theorem claim_c10 :
    (∀ (lines : List Str) (i : Nat), i < (MdToDocx.step lines i).2) ∧
    (∀ (lines : List Str) (i : Nat), i < (ToWord.step lines i).2) ∧
    (∀ (lines : List Str) (fuel : Nat), lines.length ≤ fuel →
      runScan MdToDocx.step fuel lines 0 = MdToDocx.markdown_to_docx lines) ∧
    (∀ (lines : List Str) (fuel : Nat), lines.length ≤ fuel →
      runScan ToWord.step fuel lines 0 = ToWord.markdown_to_docx lines) := by
  refine ⟨stepA_lt, stepB_lt, ?_, ?_⟩
  · intro lines fuel h
    exact runScan_congr MdToDocx.step stepA_lt fuel lines.length lines 0
      (by omega) (by omega)
  · intro lines fuel h
    exact runScan_congr ToWord.step stepB_lt fuel lines.length lines 0
      (by omega) (by omega)

/-- Witness for C10: surplus fuel does not change either scan. -/
theorem claim_c10_witness :
    runScan MdToDocx.step 9 [("- a").toList] 0 =
      MdToDocx.markdown_to_docx [("- a").toList] ∧
    runScan ToWord.step 9 [("- a").toList] 0 =
      ToWord.markdown_to_docx [("- a").toList] :=
  ⟨claim_c10.2.2.1 _ 9 (by decide), claim_c10.2.2.2 _ 9 (by decide)⟩

/-- Counterexample to claim C1: in `convert_to_word.py`, a three-line table
fragment whose only data row is dropped by the width filter still emits a
Table command (here with an empty row list), contradicting the claim that a
fragment with zero collected data rows produces no Table command. -/
theorem claim_c1_counterexample :
    ToWord.step [("| A | B |").toList, ("|---|---|").toList, ("| 1 |").toList] 0 =
      ([Cmd.table [['A'], ['B']] []], 3) := by decide

/-- Counterexample to claim C3: `convert_md_to_docx.py` has no code-fence
rule, so on the stream "```" / "x" / "```" it emits only a Paragraph for the
interior line and no CodeBlock command at all. -/
theorem claim_c3_counterexample :
    MdToDocx.markdown_to_docx [("```").toList, ("x").toList, ("```").toList] =
      [Cmd.paragraph ['x'] false false] := by decide

/-- Counterexample to claim C4: in `convert_to_word.py`, a data row whose
every cell is empty after trimming is NOT excluded (its cell count matches
the header), so the emitted row count is 1 where the claim demands 0. -/
theorem claim_c4_counterexample :
    ToWord.step [("| A | B |").toList, ("|---|---|").toList, ("|  |  |").toList] 0 =
      ([Cmd.table [['A'], ['B']] [[[], []]]], 3) := by decide

/-- Counterexample to claim C5: in `convert_to_word.py`, the ragged data row
`| x |` (one cell against a two-cell header) is silently dropped from the
emitted Table command rather than accepted as-is. -/
theorem claim_c5_counterexample :
    ToWord.step [("| A | B |").toList, ("|---|---|").toList,
        ("| 1 | 2 |").toList, ("| x |").toList] 0 =
      ([Cmd.table [['A'], ['B']] [[['1'], ['2']]]], 4) := by decide

/-- Counterexample to claim C6: `convert_to_word.py` has no horizontal-rule
rule, so the line `---` is emitted as a regular Paragraph with text `---`,
not as a Spacer. -/
theorem claim_c6_counterexample :
    ToWord.markdown_to_docx [("---").toList] =
      [Cmd.paragraph ['-', '-', '-'] false false] := by decide

/-- Counterexample to claim C7: in `convert_md_to_docx.py` the bold rule
tests the RAW line, so ` **Important** ` (leading and trailing blank), whose
trimmed content is bold-marked end to end, falls through to the plain
paragraph rule and is emitted with bold=false. -/
theorem claim_c7_counterexample :
    MdToDocx.markdown_to_docx [(" **Important** ").toList] =
      [Cmd.paragraph ((" Important ").toList) false false] := by decide

/-- Counterexample to claim C8: `convert_md_to_docx.py` has no list rule, so
`- item one` is emitted as a plain Paragraph with the bullet marker kept,
not as a ListItem. -/
theorem claim_c8_counterexample :
    MdToDocx.markdown_to_docx [("- item one").toList] =
      [Cmd.paragraph (("- item one").toList) false false] := by decide

/-- Counterexample to claim C9: the fallback paragraph rule of
`convert_to_word.py` performs no marker removal: `a_b` is emitted with its
underscore intact where the claim demands `ab`. -/
theorem claim_c9_counterexample :
    ToWord.markdown_to_docx [("a_b").toList] =
      [Cmd.paragraph (("a_b").toList) false false] := by decide

theorem stepA_fallback (lines : List Str) (i : Nat)
    (hb : pyStrip (lineAt lines i) ≠ [])
    (h1 : startsWith (lineAt lines i) ['#', ' '] = false)
    (h2 : startsWith (lineAt lines i) ['#', '#', ' '] = false)
    (h3 : startsWith (lineAt lines i) ['#', '#', '#', ' '] = false)
    (h4 : startsWith (lineAt lines i) ['#', '#', '#', '#', ' '] = false)
    (hc : containsChar '|' (lineAt lines i) = false)
    (hbold : startsWith (lineAt lines i) ['*', '*'] = false)
    (hhr : startsWith (lineAt lines i) ['-', '-', '-'] = false) :
    MdToDocx.step lines i =
      (if (pyStrip (removeChar '_' (removeChar '`'
            (removeDoubleStar (lineAt lines i))))).isEmpty then []
       else [Cmd.paragraph (removeChar '_' (removeChar '`'
            (removeDoubleStar (lineAt lines i)))) false false],
       i + 1) := by
  simp only [MdToDocx.step]
  rw [if_neg (by simp [hb]), if_neg (by simp [h1]), if_neg (by simp [h2]),
      if_neg (by simp [h3]), if_neg (by simp [h4]), if_neg (by simp [hc]),
      if_neg (by simp [hbold]), if_pos (by simp [hb, hhr])]

theorem stepB_fallback (lines : List Str) (i : Nat)
    (h1 : startsWith (lineAt lines i) ['#', ' '] = false)
    (h2 : startsWith (lineAt lines i) ['#', '#', ' '] = false)
    (h3 : startsWith (lineAt lines i) ['#', '#', '#', ' '] = false)
    (h4 : startsWith (lineAt lines i) ['#', '#', '#', '#', ' '] = false)
    (hf : startsWith (lineAt lines i) ['`', '`', '`'] = false)
    (hp : startsWith (pyStrip (lineAt lines i)) ['|'] = false)
    (hbold : (startsWith (pyStrip (lineAt lines i)) ['*', '*'] &&
              endsWith (pyStrip (lineAt lines i)) ['*', '*']) = false)
    (hlist : startsWith (pyStrip (lineAt lines i)) ['-', ' '] = false)
    (hb : pyStrip (lineAt lines i) ≠ [])
    (hh : startsWith (lineAt lines i) ['#'] = false)
    (hpipe : startsWith (lineAt lines i) ['|'] = false) :
    ToWord.step lines i =
      ([Cmd.paragraph (pyStrip (lineAt lines i)) false false], i + 1) := by
  simp only [ToWord.step]
  rw [if_neg (by simp [h1]), if_neg (by simp [h2]), if_neg (by simp [h3]),
      if_neg (by simp [h4]), if_neg (by simp [hf]), if_neg (by simp [hp]),
      if_neg (by simp [hbold]), if_neg (by simp [hlist]),
      if_pos (by simp [hb, hh, hpipe])]

theorem stepA_bold (lines : List Str) (i : Nat)
    (hstar : startsWith (lineAt lines i) ['*', '*'] = true)
    (hc : containsChar '|' (lineAt lines i) = false) :
    MdToDocx.step lines i =
      ([Cmd.paragraph (removeDoubleStar (lineAt lines i)) true false], i + 1) := by
  obtain ⟨u, hu⟩ := (startsWith_iff _ _).mp hstar
  have hu' : lineAt lines i = '*' :: '*' :: u := by simpa using hu
  simp only [MdToDocx.step]
  rw [hu']
  rw [if_neg (by simp; exact pyStrip_cons_ne (by decide) _),
      if_neg (by simp [startsWith]), if_neg (by simp [startsWith]),
      if_neg (by simp [startsWith]), if_neg (by simp [startsWith]),
      if_neg (by rw [← hu']; simp [hc]), if_pos (by rw [← hu']; simp [hstar])]

theorem stepB_bold (lines : List Str) (i : Nat)
    (h1 : startsWith (lineAt lines i) ['#', ' '] = false)
    (h2 : startsWith (lineAt lines i) ['#', '#', ' '] = false)
    (h3 : startsWith (lineAt lines i) ['#', '#', '#', ' '] = false)
    (h4 : startsWith (lineAt lines i) ['#', '#', '#', '#', ' '] = false)
    (hf : startsWith (lineAt lines i) ['`', '`', '`'] = false)
    (hstar : startsWith (pyStrip (lineAt lines i)) ['*', '*'] = true)
    (hend : endsWith (pyStrip (lineAt lines i)) ['*', '*'] = true) :
    ToWord.step lines i =
      ([Cmd.paragraph ((((pyStrip (lineAt lines i)).drop 2).dropLast).dropLast)
          true false], i + 1) := by
  obtain ⟨u, hu⟩ := (startsWith_iff _ _).mp hstar
  have hu' : pyStrip (lineAt lines i) = '*' :: '*' :: u := by simpa using hu
  simp only [ToWord.step]
  rw [if_neg (by simp [h1]), if_neg (by simp [h2]), if_neg (by simp [h3]),
      if_neg (by simp [h4]), if_neg (by simp [hf]),
      if_neg (by rw [hu']; simp [startsWith]),
      if_pos (by simp [hstar, hend])]

theorem stepB_list (lines : List Str) (i : Nat)
    (h1 : startsWith (lineAt lines i) ['#', ' '] = false)
    (h2 : startsWith (lineAt lines i) ['#', '#', ' '] = false)
    (h3 : startsWith (lineAt lines i) ['#', '#', '#', ' '] = false)
    (h4 : startsWith (lineAt lines i) ['#', '#', '#', '#', ' '] = false)
    (hf : startsWith (lineAt lines i) ['`', '`', '`'] = false)
    (hlist : startsWith (pyStrip (lineAt lines i)) ['-', ' '] = true) :
    ToWord.step lines i =
      ([Cmd.listItem ((pyStrip (lineAt lines i)).drop 2)], i + 1) := by
  obtain ⟨u, hu⟩ := (startsWith_iff _ _).mp hlist
  have hu' : pyStrip (lineAt lines i) = '-' :: ' ' :: u := by simpa using hu
  simp only [ToWord.step]
  rw [if_neg (by simp [h1]), if_neg (by simp [h2]), if_neg (by simp [h3]),
      if_neg (by simp [h4]), if_neg (by simp [hf]),
      if_neg (by rw [hu']; simp [startsWith]),
      if_neg (by rw [hu']; simp [startsWith]),
      if_pos (by simp [hlist])]

theorem stepB_table_emits (lines : List Str) (i : Nat)
    (h1 : startsWith (lineAt lines i) ['#', ' '] = false)
    (h2 : startsWith (lineAt lines i) ['#', '#', ' '] = false)
    (h3 : startsWith (lineAt lines i) ['#', '#', '#', ' '] = false)
    (h4 : startsWith (lineAt lines i) ['#', '#', '#', '#', ' '] = false)
    (hf : startsWith (lineAt lines i) ['`', '`', '`'] = false)
    (hp : startsWith (pyStrip (lineAt lines i)) ['|'] = true)
    (hRT : splitOnChar '\n' (pyStrip (List.intercalate ['\n']
             (ToWord.tableRun lines i))) = ToWord.tableRun lines i)
    (hge : 3 ≤ (ToWord.tableRun lines i).length) :
    ToWord.step lines i =
      ([Cmd.table (splitCells (lineAt (ToWord.tableRun lines i) 0))
          (ToWord.qualifyingRows
            (splitCells (lineAt (ToWord.tableRun lines i) 0))
            (ToWord.tableRun lines i))],
       i + ((lines.drop (i + 1)).takeWhile ToWord.pipeStartB).length + 1) := by
  rw [stepB_table lines i h1 h2 h3 h4 hf hp, add_table_spec _ hRT,
      if_neg (by omega)]
  rfl

theorem stepA_table_emits (lines : List Str) (i : Nat)
    (hb : pyStrip (lineAt lines i) ≠ [])
    (h1 : startsWith (lineAt lines i) ['#', ' '] = false)
    (h2 : startsWith (lineAt lines i) ['#', '#', ' '] = false)
    (h3 : startsWith (lineAt lines i) ['#', '#', '#', ' '] = false)
    (h4 : startsWith (lineAt lines i) ['#', '#', '#', '#', ' '] = false)
    (hc : containsChar '|' (lineAt lines i) = true)
    (hlen : i < lines.length)
    (hsep1 : i + 1 < lines.length)
    (hsep2 : hasSubstr ['-', '-', '-'] (lineAt lines (i + 1)) = true)
    (hH : splitCells (pyStrip (lineAt lines i)) ≠ [])
    (hR : (((lines.drop (i + 2)).takeWhile MdToDocx.dataLineOk).map
             MdToDocx.rowCells).filter MdToDocx.keepRow ≠ []) :
    MdToDocx.step lines i =
      ([Cmd.table (splitCells (pyStrip (lineAt lines i)))
          ((((lines.drop (i + 2)).takeWhile MdToDocx.dataLineOk).map
              MdToDocx.rowCells).filter MdToDocx.keepRow)],
       i + 2 + ((lines.drop (i + 2)).takeWhile MdToDocx.dataLineOk).length) := by
  rw [stepA_table lines i hb h1 h2 h3 h4 hc,
      parse_table_spec lines i hlen hc hsep1 hsep2]
  rw [if_pos (by simp [hH, hR])]

theorem containsChar_eq_false {c : Char} {l : Str} (h : ∀ x ∈ l, ¬x = c) :
    containsChar c l = false := by
  rw [Bool.eq_false_iff]
  intro hh
  rw [containsChar, List.any_eq_true] at hh
  obtain ⟨x, hx, hxc⟩ := hh
  exact h x hx (by simpa using hxc)

/-- Claim C1 (amended): in `convert_md_to_docx.py`, a table fragment whose
header was recognised but from which `parse_table` collected zero data rows
emits no Table command and the cursor resumes at `parse_table`'s returned
index, strictly past the fragment's start.  In `convert_to_word.py`, a run
of pipe-started lines shorter than three emits no Table command, but a run
of three or more pipe-started lines emits a Table command even when zero
data rows qualify. -/
theorem claim_c1_amended :
    (∀ (lines : List Str) (i : Nat),
      pyStrip (lineAt lines i) ≠ [] →
      startsWith (lineAt lines i) ['#', ' '] = false →
      startsWith (lineAt lines i) ['#', '#', ' '] = false →
      startsWith (lineAt lines i) ['#', '#', '#', ' '] = false →
      startsWith (lineAt lines i) ['#', '#', '#', '#', ' '] = false →
      containsChar '|' (lineAt lines i) = true →
      (MdToDocx.parse_table lines i).2.1 = [] →
      MdToDocx.step lines i = ([], (MdToDocx.parse_table lines i).2.2) ∧
      i < (MdToDocx.parse_table lines i).2.2) ∧
    (∀ (lines : List Str) (i : Nat),
      startsWith (lineAt lines i) ['#', ' '] = false →
      startsWith (lineAt lines i) ['#', '#', ' '] = false →
      startsWith (lineAt lines i) ['#', '#', '#', ' '] = false →
      startsWith (lineAt lines i) ['#', '#', '#', '#', ' '] = false →
      startsWith (lineAt lines i) ['`', '`', '`'] = false →
      startsWith (pyStrip (lineAt lines i)) ['|'] = true →
      splitOnChar '\n' (pyStrip (List.intercalate ['\n']
        (ToWord.tableRun lines i))) = ToWord.tableRun lines i →
      (ToWord.tableRun lines i).length < 3 →
      ToWord.step lines i =
        ([], i + ((lines.drop (i + 1)).takeWhile ToWord.pipeStartB).length + 1)) ∧
    (∀ (lines : List Str) (i : Nat),
      startsWith (lineAt lines i) ['#', ' '] = false →
      startsWith (lineAt lines i) ['#', '#', ' '] = false →
      startsWith (lineAt lines i) ['#', '#', '#', ' '] = false →
      startsWith (lineAt lines i) ['#', '#', '#', '#', ' '] = false →
      startsWith (lineAt lines i) ['`', '`', '`'] = false →
      startsWith (pyStrip (lineAt lines i)) ['|'] = true →
      splitOnChar '\n' (pyStrip (List.intercalate ['\n']
        (ToWord.tableRun lines i))) = ToWord.tableRun lines i →
      3 ≤ (ToWord.tableRun lines i).length →
      ToWord.step lines i =
        ([Cmd.table (splitCells (lineAt (ToWord.tableRun lines i) 0))
            (ToWord.qualifyingRows
              (splitCells (lineAt (ToWord.tableRun lines i) 0))
              (ToWord.tableRun lines i))],
         i + ((lines.drop (i + 1)).takeWhile ToWord.pipeStartB).length + 1)) := by
  refine ⟨?_, ?_, stepB_table_emits⟩
  · intro lines i hb h1 h2 h3 h4 hc hr
    refine ⟨?_, parse_table_lt lines i hc⟩
    rw [stepA_table lines i hb h1 h2 h3 h4 hc]
    simp [hr]
  · intro lines i h1 h2 h3 h4 hf hp hRT hlt
    rw [stepB_table lines i h1 h2 h3 h4 hf hp, add_table_spec _ hRT,
        if_pos hlt]
    rfl

/-- Witness for C1 (amended), instantiating all three parts. -/
theorem claim_c1_witness :
    (MdToDocx.step [("| A | B |").toList, ("|---|---|").toList] 0 =
       ([], (MdToDocx.parse_table
              [("| A | B |").toList, ("|---|---|").toList] 0).2.2) ∧
     0 < (MdToDocx.parse_table
            [("| A | B |").toList, ("|---|---|").toList] 0).2.2) ∧
    ToWord.step [("| A |").toList] 0 =
      ([], 0 + (([] : List Str).takeWhile ToWord.pipeStartB).length + 1) ∧
    ToWord.step [("| A | B |").toList, ("|---|---|").toList, ("| 1 |").toList] 0 =
      ([Cmd.table
          (splitCells (lineAt (ToWord.tableRun
            [("| A | B |").toList, ("|---|---|").toList, ("| 1 |").toList] 0) 0))
          (ToWord.qualifyingRows
            (splitCells (lineAt (ToWord.tableRun
              [("| A | B |").toList, ("|---|---|").toList, ("| 1 |").toList] 0) 0))
            (ToWord.tableRun
              [("| A | B |").toList, ("|---|---|").toList, ("| 1 |").toList] 0))],
       0 + (([("|---|---|").toList, ("| 1 |").toList]).takeWhile
              ToWord.pipeStartB).length + 1) :=
  ⟨claim_c1_amended.1 _ 0 (by decide) (by decide) (by decide) (by decide)
      (by decide) (by decide) (by decide),
   claim_c1_amended.2.1 _ 0 (by decide) (by decide) (by decide) (by decide)
      (by decide) (by decide) (by decide) (by decide),
   claim_c1_amended.2.2 _ 0 (by decide) (by decide) (by decide) (by decide)
      (by decide) (by decide) (by decide) (by decide)⟩

/-- Claim C3 (amended): in `convert_to_word.py`, a line starting with a
triple-backtick fence consumes the following lines up to the closing fence
(or the end of stream) and emits exactly one CodeBlock whose text is the
interior lines joined by newlines, with the cursor placed past the closing
delimiter.  `convert_md_to_docx.py` has no fence rule: a fence line (with no
pipe character) consumes exactly one line and never emits a CodeBlock. -/
theorem claim_c3_amended :
    (∀ (lines : List Str) (i : Nat),
      startsWith (lineAt lines i) ['`', '`', '`'] = true →
      ToWord.step lines i =
        ([Cmd.codeBlock (List.intercalate ['\n']
            ((lines.drop (i + 1)).takeWhile ToWord.notFence))],
         i + ((lines.drop (i + 1)).takeWhile ToWord.notFence).length + 2)) ∧
    (∀ (lines : List Str) (i : Nat),
      startsWith (lineAt lines i) ['`', '`', '`'] = true →
      containsChar '|' (lineAt lines i) = false →
      (MdToDocx.step lines i).2 = i + 1 ∧
      ∀ c ∈ (MdToDocx.step lines i).1, ∀ s, c ≠ Cmd.codeBlock s) := by
  constructor
  · intro lines i hf
    obtain ⟨t, hu⟩ := (startsWith_iff _ _).mp hf
    have hu' : lineAt lines i = '`' :: '`' :: '`' :: t := by simpa using hu
    simp only [ToWord.step]
    rw [hu']
    rw [if_neg (by simp [startsWith]), if_neg (by simp [startsWith]),
        if_neg (by simp [startsWith]), if_neg (by simp [startsWith]),
        if_pos (by simp [startsWith]), collectCode_spec]
  · intro lines i hf hc
    obtain ⟨t, hu⟩ := (startsWith_iff _ _).mp hf
    have hu' : lineAt lines i = '`' :: '`' :: '`' :: t := by simpa using hu
    have hstep := stepA_fallback lines i
      (by rw [hu']; exact pyStrip_cons_ne (by decide) _)
      (by rw [hu']; simp [startsWith]) (by rw [hu']; simp [startsWith])
      (by rw [hu']; simp [startsWith]) (by rw [hu']; simp [startsWith])
      hc
      (by rw [hu']; simp [startsWith]) (by rw [hu']; simp [startsWith])
    rw [hstep]
    refine ⟨rfl, ?_⟩
    intro c hcm s
    split at hcm
    · simp at hcm
    · simp at hcm
      subst hcm
      simp

/-- Witness for C3 (amended): a fence with an interior blank line, and the
absence of any CodeBlock from the other scanner on the same stream. -/
theorem claim_c3_witness :
    ToWord.step [("```").toList, ("a").toList, ("").toList, ("b").toList,
        ("```").toList, ("after").toList] 0 =
      ([Cmd.codeBlock (List.intercalate ['\n']
          (([("a").toList, ("").toList, ("b").toList, ("```").toList,
             ("after").toList]).takeWhile ToWord.notFence))],
       0 + (([("a").toList, ("").toList, ("b").toList, ("```").toList,
             ("after").toList]).takeWhile ToWord.notFence).length + 2) ∧
    ((MdToDocx.step [("```").toList, ("a").toList, ("").toList, ("b").toList,
        ("```").toList, ("after").toList] 0).2 = 0 + 1 ∧
     ∀ c ∈ (MdToDocx.step [("```").toList, ("a").toList, ("").toList,
        ("b").toList, ("```").toList, ("after").toList] 0).1,
       ∀ s, c ≠ Cmd.codeBlock s) :=
  ⟨claim_c3_amended.1 _ 0 (by decide),
   claim_c3_amended.2 _ 0 (by decide) (by decide)⟩

/-- Claim C4 (amended): for a well-formed header + separator + data block,
`convert_md_to_docx.py` emits a Table whose headers are the pipe-delimited
cells of the stripped header line and whose rows are exactly the consumed
data lines' cell lists with all-empty rows removed (so the row count is the
number of qualifying data lines); `convert_to_word.py` likewise takes the
header cells from the first block line, but keeps a data row iff it is
non-blank, contains a pipe, and its cell count equals the header count —
all-empty rows of matching width are kept, ragged rows are dropped. -/
theorem claim_c4_amended :
    (∀ (lines : List Str) (i : Nat),
      pyStrip (lineAt lines i) ≠ [] →
      startsWith (lineAt lines i) ['#', ' '] = false →
      startsWith (lineAt lines i) ['#', '#', ' '] = false →
      startsWith (lineAt lines i) ['#', '#', '#', ' '] = false →
      startsWith (lineAt lines i) ['#', '#', '#', '#', ' '] = false →
      containsChar '|' (lineAt lines i) = true →
      i < lines.length → i + 1 < lines.length →
      hasSubstr ['-', '-', '-'] (lineAt lines (i + 1)) = true →
      splitCells (pyStrip (lineAt lines i)) ≠ [] →
      (((lines.drop (i + 2)).takeWhile MdToDocx.dataLineOk).map
         MdToDocx.rowCells).filter MdToDocx.keepRow ≠ [] →
      MdToDocx.step lines i =
        ([Cmd.table (splitCells (pyStrip (lineAt lines i)))
            ((((lines.drop (i + 2)).takeWhile MdToDocx.dataLineOk).map
                MdToDocx.rowCells).filter MdToDocx.keepRow)],
         i + 2 + ((lines.drop (i + 2)).takeWhile MdToDocx.dataLineOk).length) ∧
      ((((lines.drop (i + 2)).takeWhile MdToDocx.dataLineOk).map
          MdToDocx.rowCells).filter MdToDocx.keepRow).length =
        ((lines.drop (i + 2)).takeWhile MdToDocx.dataLineOk).countP
          (fun l => MdToDocx.keepRow (MdToDocx.rowCells l))) ∧
    (∀ (lines : List Str) (i : Nat),
      startsWith (lineAt lines i) ['#', ' '] = false →
      startsWith (lineAt lines i) ['#', '#', ' '] = false →
      startsWith (lineAt lines i) ['#', '#', '#', ' '] = false →
      startsWith (lineAt lines i) ['#', '#', '#', '#', ' '] = false →
      startsWith (lineAt lines i) ['`', '`', '`'] = false →
      startsWith (pyStrip (lineAt lines i)) ['|'] = true →
      splitOnChar '\n' (pyStrip (List.intercalate ['\n']
        (ToWord.tableRun lines i))) = ToWord.tableRun lines i →
      3 ≤ (ToWord.tableRun lines i).length →
      ToWord.step lines i =
        ([Cmd.table (splitCells (lineAt (ToWord.tableRun lines i) 0))
            (ToWord.qualifyingRows
              (splitCells (lineAt (ToWord.tableRun lines i) 0))
              (ToWord.tableRun lines i))],
         i + ((lines.drop (i + 1)).takeWhile ToWord.pipeStartB).length + 1)) := by
  refine ⟨?_, stepB_table_emits⟩
  intro lines i hb h1 h2 h3 h4 hc hlen hsep1 hsep2 hH hR
  refine ⟨stepA_table_emits lines i hb h1 h2 h3 h4 hc hlen hsep1 hsep2 hH hR, ?_⟩
  rw [← List.countP_eq_length_filter, List.countP_map]
  rfl

/-- Witness for C4 (amended) at the spec's round-trip table instance. -/
theorem claim_c4_witness :
    (MdToDocx.step [("| A | B |").toList, ("|---|---|").toList,
        ("| 1 | 2 |").toList] 0 =
      ([Cmd.table (splitCells (pyStrip (lineAt [("| A | B |").toList,
            ("|---|---|").toList, ("| 1 | 2 |").toList] 0)))
          (((([("| 1 | 2 |").toList]).takeWhile MdToDocx.dataLineOk).map
              MdToDocx.rowCells).filter MdToDocx.keepRow)],
       0 + 2 + (([("| 1 | 2 |").toList]).takeWhile MdToDocx.dataLineOk).length) ∧
     (((([("| 1 | 2 |").toList]).takeWhile MdToDocx.dataLineOk).map
         MdToDocx.rowCells).filter MdToDocx.keepRow).length =
       (([("| 1 | 2 |").toList]).takeWhile MdToDocx.dataLineOk).countP
         (fun l => MdToDocx.keepRow (MdToDocx.rowCells l))) ∧
    ToWord.step [("| A | B |").toList, ("|---|---|").toList,
        ("| 1 | 2 |").toList] 0 =
      ([Cmd.table
          (splitCells (lineAt (ToWord.tableRun [("| A | B |").toList,
            ("|---|---|").toList, ("| 1 | 2 |").toList] 0) 0))
          (ToWord.qualifyingRows
            (splitCells (lineAt (ToWord.tableRun [("| A | B |").toList,
              ("|---|---|").toList, ("| 1 | 2 |").toList] 0) 0))
            (ToWord.tableRun [("| A | B |").toList, ("|---|---|").toList,
              ("| 1 | 2 |").toList] 0))],
       0 + (([("|---|---|").toList, ("| 1 | 2 |").toList]).takeWhile
              ToWord.pipeStartB).length + 1) :=
  ⟨claim_c4_amended.1 _ 0 (by decide) (by decide) (by decide) (by decide)
      (by decide) (by decide) (by decide) (by decide) (by decide) (by decide)
      (by decide),
   claim_c4_amended.2 _ 0 (by decide) (by decide) (by decide) (by decide)
      (by decide) (by decide) (by decide) (by decide)⟩

/-- Claim C5 (amended): `convert_md_to_docx.py`'s `parse_table` accepts every
kept data row's cell list into the Table command exactly as parsed — no
check against the header count, no truncation, no padding; in
`convert_to_word.py`, a data row whose cell count differs from the header's
is silently dropped from the emitted Table command. -/
theorem claim_c5_amended :
    (∀ (lines : List Str) (i : Nat) (l : Str),
      i < lines.length →
      containsChar '|' (lineAt lines i) = true →
      i + 1 < lines.length →
      hasSubstr ['-', '-', '-'] (lineAt lines (i + 1)) = true →
      l ∈ (lines.drop (i + 2)).takeWhile MdToDocx.dataLineOk →
      MdToDocx.keepRow (MdToDocx.rowCells l) = true →
      MdToDocx.rowCells l ∈ (MdToDocx.parse_table lines i).2.1) ∧
    (∀ (lines : List Str) (i : Nat) (l : Str),
      startsWith (lineAt lines i) ['#', ' '] = false →
      startsWith (lineAt lines i) ['#', '#', ' '] = false →
      startsWith (lineAt lines i) ['#', '#', '#', ' '] = false →
      startsWith (lineAt lines i) ['#', '#', '#', '#', ' '] = false →
      startsWith (lineAt lines i) ['`', '`', '`'] = false →
      startsWith (pyStrip (lineAt lines i)) ['|'] = true →
      splitOnChar '\n' (pyStrip (List.intercalate ['\n']
        (ToWord.tableRun lines i))) = ToWord.tableRun lines i →
      3 ≤ (ToWord.tableRun lines i).length →
      (splitCells l).length ≠
        (splitCells (lineAt (ToWord.tableRun lines i) 0)).length →
      ToWord.step lines i =
        ([Cmd.table (splitCells (lineAt (ToWord.tableRun lines i) 0))
            (ToWord.qualifyingRows
              (splitCells (lineAt (ToWord.tableRun lines i) 0))
              (ToWord.tableRun lines i))],
         i + ((lines.drop (i + 1)).takeWhile ToWord.pipeStartB).length + 1) ∧
      splitCells l ∉ ToWord.qualifyingRows
        (splitCells (lineAt (ToWord.tableRun lines i) 0))
        (ToWord.tableRun lines i)) := by
  constructor
  · intro lines i l hlen hc hsep1 hsep2 hl hk
    rw [parse_table_spec lines i hlen hc hsep1 hsep2]
    exact List.mem_filter.mpr ⟨List.mem_map_of_mem _ hl, hk⟩
  · intro lines i l h1 h2 h3 h4 hf hp hRT hge hne
    refine ⟨stepB_table_emits lines i h1 h2 h3 h4 hf hp hRT hge, ?_⟩
    intro hmem
    rw [ToWord.qualifyingRows, List.mem_filterMap] at hmem
    obtain ⟨a, ha, hfa⟩ := hmem
    by_cases hc1 : (!(pyStrip a).isEmpty && containsChar '|' a) = true
    · rw [if_pos hc1] at hfa
      by_cases hc2 : (splitCells a).length =
          (splitCells (lineAt (ToWord.tableRun lines i) 0)).length
      · rw [if_pos hc2] at hfa
        have : splitCells a = splitCells l := by
          simpa using hfa
        rw [this] at hc2
        exact hne hc2
      · rw [if_neg hc2] at hfa
        cases hfa
    · rw [if_neg hc1] at hfa
      cases hfa

/-- Witness for C5 (amended): the file-1 scan keeps the one-cell row `| x |`
against a two-cell header, while the file-2 scan drops it. -/
theorem claim_c5_witness :
    MdToDocx.rowCells (("| x |").toList) ∈
      (MdToDocx.parse_table [("| A | B |").toList, ("|---|---|").toList,
        ("| x |").toList] 0).2.1 ∧
    (ToWord.step [("| A | B |").toList, ("|---|---|").toList,
        ("| 1 | 2 |").toList, ("| x |").toList] 0 =
      ([Cmd.table
          (splitCells (lineAt (ToWord.tableRun [("| A | B |").toList,
            ("|---|---|").toList, ("| 1 | 2 |").toList, ("| x |").toList] 0) 0))
          (ToWord.qualifyingRows
            (splitCells (lineAt (ToWord.tableRun [("| A | B |").toList,
              ("|---|---|").toList, ("| 1 | 2 |").toList,
              ("| x |").toList] 0) 0))
            (ToWord.tableRun [("| A | B |").toList, ("|---|---|").toList,
              ("| 1 | 2 |").toList, ("| x |").toList] 0))],
       0 + (([("|---|---|").toList, ("| 1 | 2 |").toList,
              ("| x |").toList]).takeWhile ToWord.pipeStartB).length + 1) ∧
     splitCells (("| x |").toList) ∉ ToWord.qualifyingRows
        (splitCells (lineAt (ToWord.tableRun [("| A | B |").toList,
          ("|---|---|").toList, ("| 1 | 2 |").toList, ("| x |").toList] 0) 0))
        (ToWord.tableRun [("| A | B |").toList, ("|---|---|").toList,
          ("| 1 | 2 |").toList, ("| x |").toList] 0)) :=
  ⟨claim_c5_amended.1 _ 0 (("| x |").toList) (by decide) (by decide)
      (by decide) (by decide) (by decide) (by decide),
   claim_c5_amended.2 _ 0 (("| x |").toList) (by decide) (by decide)
      (by decide) (by decide) (by decide) (by decide) (by decide) (by decide)
      (by decide)⟩

/-- Claim C6 (amended): `convert_md_to_docx.py` emits exactly one Spacer for
a line of three or more hyphens and advances the cursor by one line;
`convert_to_word.py` has no horizontal-rule rule and emits a regular
Paragraph whose text is the hyphen line itself. -/
theorem claim_c6_amended :
    (∀ (lines : List Str) (i m : Nat),
      3 ≤ m → lineAt lines i = List.replicate m '-' →
      MdToDocx.step lines i = ([Cmd.spacer], i + 1)) ∧
    (∀ (lines : List Str) (i m : Nat),
      3 ≤ m → lineAt lines i = List.replicate m '-' →
      ToWord.step lines i =
        ([Cmd.paragraph (List.replicate m '-') false false], i + 1)) := by
  constructor
  · intro lines i m hm hline
    obtain ⟨k, rfl⟩ : ∃ k, m = k + 3 := ⟨m - 3, by omega⟩
    rw [show List.replicate (k + 3) '-' =
        '-' :: '-' :: '-' :: List.replicate k '-' from rfl] at hline
    have hcont : containsChar '|'
        ('-' :: '-' :: '-' :: List.replicate k '-') = false := by
      refine containsChar_eq_false ?_
      intro x hx
      simp only [List.mem_cons, List.mem_replicate] at hx
      rcases hx with rfl | rfl | rfl | ⟨-, rfl⟩ <;> decide
    simp only [MdToDocx.step]
    rw [hline]
    rw [if_neg (by simp; exact pyStrip_cons_ne (by decide) _),
        if_neg (by simp [startsWith]), if_neg (by simp [startsWith]),
        if_neg (by simp [startsWith]), if_neg (by simp [startsWith]),
        if_neg (by simp [hcont]), if_neg (by simp [startsWith]),
        if_neg (by simp [startsWith]), if_pos (by simp [startsWith])]
  · intro lines i m hm hline
    obtain ⟨k, rfl⟩ : ∃ k, m = k + 3 := ⟨m - 3, by omega⟩
    rw [show List.replicate (k + 3) '-' =
        '-' :: '-' :: '-' :: List.replicate k '-' from rfl] at hline
    have hns : ∀ x ∈ ('-' :: '-' :: '-' :: List.replicate k '-' : Str),
        isSpace x = false := by
      intro x hx
      simp only [List.mem_cons, List.mem_replicate] at hx
      rcases hx with rfl | rfl | rfl | ⟨-, rfl⟩ <;> decide
    have hps : pyStrip ('-' :: '-' :: '-' :: List.replicate k '-') =
        '-' :: '-' :: '-' :: List.replicate k '-' := pyStrip_eq_self_of _ hns
    simp only [ToWord.step]
    rw [hline]
    rw [if_neg (by simp [startsWith]), if_neg (by simp [startsWith]),
        if_neg (by simp [startsWith]), if_neg (by simp [startsWith]),
        if_neg (by simp [startsWith]),
        if_neg (by rw [hps]; simp [startsWith]),
        if_neg (by rw [hps]; simp [startsWith]),
        if_neg (by rw [hps]; simp [startsWith]),
        if_pos (by rw [hps]; simp [startsWith]), hps]
    rfl

/-- Witness for C6 (amended) on the plain `---` line. -/
theorem claim_c6_witness :
    MdToDocx.step [("---").toList] 0 = ([Cmd.spacer], 0 + 1) ∧
    ToWord.step [("---").toList] 0 =
      ([Cmd.paragraph (List.replicate 3 '-') false false], 0 + 1) :=
  ⟨claim_c6_amended.1 _ 0 3 (by decide) (by decide),
   claim_c6_amended.2 _ 0 3 (by decide) (by decide)⟩

/-- Claim C7 (amended): in `convert_to_word.py`, a line (matching no earlier
rule) whose trimmed content starts and ends with the double-asterisk marker
is emitted as one Paragraph with bold=true whose text is the trimmed line
with the two outer markers sliced off.  In `convert_md_to_docx.py`, the bold
rule instead tests whether the RAW line starts with the marker (no trailing
check, so a leading blank defeats it) and the emitted bold text is the line
with every double-asterisk occurrence removed.  For the whole line
`**Important**` both scanners emit Paragraph(bold=true, text `Important`). -/
theorem claim_c7_amended :
    (∀ (lines : List Str) (i : Nat),
      startsWith (lineAt lines i) ['#', ' '] = false →
      startsWith (lineAt lines i) ['#', '#', ' '] = false →
      startsWith (lineAt lines i) ['#', '#', '#', ' '] = false →
      startsWith (lineAt lines i) ['#', '#', '#', '#', ' '] = false →
      startsWith (lineAt lines i) ['`', '`', '`'] = false →
      startsWith (pyStrip (lineAt lines i)) ['*', '*'] = true →
      endsWith (pyStrip (lineAt lines i)) ['*', '*'] = true →
      ToWord.step lines i =
        ([Cmd.paragraph ((((pyStrip (lineAt lines i)).drop 2).dropLast).dropLast)
            true false], i + 1)) ∧
    (∀ (lines : List Str) (i : Nat),
      startsWith (lineAt lines i) ['*', '*'] = true →
      containsChar '|' (lineAt lines i) = false →
      MdToDocx.step lines i =
        ([Cmd.paragraph (removeDoubleStar (lineAt lines i)) true false],
         i + 1)) :=
  ⟨stepB_bold, stepA_bold⟩

/-- Witness for C7 (amended) at the spec's instance `**Important**`. -/
theorem claim_c7_witness :
    ToWord.step [("**Important**").toList] 0 =
      ([Cmd.paragraph
          ((((pyStrip (lineAt [("**Important**").toList] 0)).drop
              2).dropLast).dropLast) true false], 0 + 1) ∧
    MdToDocx.step [("**Important**").toList] 0 =
      ([Cmd.paragraph (removeDoubleStar (lineAt [("**Important**").toList] 0))
          true false], 0 + 1) :=
  ⟨claim_c7_amended.1 _ 0 (by decide) (by decide) (by decide) (by decide)
      (by decide) (by decide) (by decide),
   claim_c7_amended.2 _ 0 (by decide) (by decide)⟩

/-- Claim C8 (amended): in `convert_to_word.py`, a line (matching no earlier
rule) whose trimmed content starts with the `- ` bullet marker is emitted as
exactly one ListItem whose text is the trimmed line without the marker.
`convert_md_to_docx.py` has no list rule: such a line (with no pipe
character) consumes one line and never emits a ListItem. -/
theorem claim_c8_amended :
    (∀ (lines : List Str) (i : Nat),
      startsWith (lineAt lines i) ['#', ' '] = false →
      startsWith (lineAt lines i) ['#', '#', ' '] = false →
      startsWith (lineAt lines i) ['#', '#', '#', ' '] = false →
      startsWith (lineAt lines i) ['#', '#', '#', '#', ' '] = false →
      startsWith (lineAt lines i) ['`', '`', '`'] = false →
      startsWith (pyStrip (lineAt lines i)) ['-', ' '] = true →
      ToWord.step lines i =
        ([Cmd.listItem ((pyStrip (lineAt lines i)).drop 2)], i + 1)) ∧
    (∀ (lines : List Str) (i : Nat),
      startsWith (lineAt lines i) ['-', ' '] = true →
      containsChar '|' (lineAt lines i) = false →
      (MdToDocx.step lines i).2 = i + 1 ∧
      ∀ c ∈ (MdToDocx.step lines i).1, ∀ s, c ≠ Cmd.listItem s) := by
  refine ⟨stepB_list, ?_⟩
  intro lines i hlist hc
  obtain ⟨u, hu⟩ := (startsWith_iff _ _).mp hlist
  have hu' : lineAt lines i = '-' :: ' ' :: u := by simpa using hu
  have hstep := stepA_fallback lines i
    (by rw [hu']; exact pyStrip_cons_ne (by decide) _)
    (by rw [hu']; simp [startsWith]) (by rw [hu']; simp [startsWith])
    (by rw [hu']; simp [startsWith]) (by rw [hu']; simp [startsWith])
    hc
    (by rw [hu']; simp [startsWith]) (by rw [hu']; simp [startsWith])
  rw [hstep]
  refine ⟨rfl, ?_⟩
  intro c hcm s
  split at hcm
  · simp at hcm
  · simp at hcm
    subst hcm
    simp

/-- Witness for C8 (amended) at the spec's instance `- item one`. -/
theorem claim_c8_witness :
    ToWord.step [("- item one").toList] 0 =
      ([Cmd.listItem ((pyStrip (lineAt [("- item one").toList] 0)).drop 2)],
       0 + 1) ∧
    ((MdToDocx.step [("- item one").toList] 0).2 = 0 + 1 ∧
     ∀ c ∈ (MdToDocx.step [("- item one").toList] 0).1,
       ∀ s, c ≠ Cmd.listItem s) :=
  ⟨claim_c8_amended.1 _ 0 (by decide) (by decide) (by decide) (by decide)
      (by decide) (by decide),
   claim_c8_amended.2 _ 0 (by decide) (by decide)⟩

/-- Claim C9 (amended): for a fallback line, `convert_md_to_docx.py` emits a
Paragraph with bold=false, italic=false whose text is the line with every
literal `**`, backtick and `_` removed — except that when the text is
whitespace-only after removal, nothing is emitted at all; the fallback rule
of `convert_to_word.py` (lines not starting with `#` or `|`) emits the
whitespace-trimmed line unmodified, with no marker removal. -/
theorem claim_c9_amended :
    (∀ (lines : List Str) (i : Nat),
      pyStrip (lineAt lines i) ≠ [] →
      startsWith (lineAt lines i) ['#', ' '] = false →
      startsWith (lineAt lines i) ['#', '#', ' '] = false →
      startsWith (lineAt lines i) ['#', '#', '#', ' '] = false →
      startsWith (lineAt lines i) ['#', '#', '#', '#', ' '] = false →
      containsChar '|' (lineAt lines i) = false →
      startsWith (lineAt lines i) ['*', '*'] = false →
      startsWith (lineAt lines i) ['-', '-', '-'] = false →
      MdToDocx.step lines i =
        (if (pyStrip (removeChar '_' (removeChar '`'
              (removeDoubleStar (lineAt lines i))))).isEmpty then []
         else [Cmd.paragraph (removeChar '_' (removeChar '`'
              (removeDoubleStar (lineAt lines i)))) false false],
         i + 1)) ∧
    (∀ (lines : List Str) (i : Nat),
      startsWith (lineAt lines i) ['#', ' '] = false →
      startsWith (lineAt lines i) ['#', '#', ' '] = false →
      startsWith (lineAt lines i) ['#', '#', '#', ' '] = false →
      startsWith (lineAt lines i) ['#', '#', '#', '#', ' '] = false →
      startsWith (lineAt lines i) ['`', '`', '`'] = false →
      startsWith (pyStrip (lineAt lines i)) ['|'] = false →
      (startsWith (pyStrip (lineAt lines i)) ['*', '*'] &&
        endsWith (pyStrip (lineAt lines i)) ['*', '*']) = false →
      startsWith (pyStrip (lineAt lines i)) ['-', ' '] = false →
      pyStrip (lineAt lines i) ≠ [] →
      startsWith (lineAt lines i) ['#'] = false →
      startsWith (lineAt lines i) ['|'] = false →
      ToWord.step lines i =
        ([Cmd.paragraph (pyStrip (lineAt lines i)) false false], i + 1)) :=
  ⟨stepA_fallback, stepB_fallback⟩

/-- Witness for C9 (amended): file 1 strips the markers from `x_y`, file 2
emits `a_b` untouched. -/
theorem claim_c9_witness :
    MdToDocx.step [("x_y").toList] 0 =
      (if (pyStrip (removeChar '_' (removeChar '`'
            (removeDoubleStar (lineAt [("x_y").toList] 0))))).isEmpty then []
       else [Cmd.paragraph (removeChar '_' (removeChar '`'
            (removeDoubleStar (lineAt [("x_y").toList] 0)))) false false],
       0 + 1) ∧
    ToWord.step [("a_b").toList] 0 =
      ([Cmd.paragraph (pyStrip (lineAt [("a_b").toList] 0)) false false],
       0 + 1) :=
  ⟨claim_c9_amended.1 _ 0 (by decide) (by decide) (by decide) (by decide)
      (by decide) (by decide) (by decide) (by decide),
   claim_c9_amended.2 _ 0 (by decide) (by decide) (by decide) (by decide)
      (by decide) (by decide) (by decide) (by decide) (by decide) (by decide)
      (by decide)⟩
